import Mathlib

/-!
Verification of the schema compiler in `guardrails/utils/pydantic_utils.py`:
a shallow embedding of the type normalizer (`prepare_type_annotation`), the
type classifier (`type_annotation_to_string`), the validator encoder
(`add_validators_to_xml_element`) and the recursive tree builder
(`create_xml_element_for_field` / `create_xml_element_for_base_model`),
together with proofs about them.

Python type annotations are modelled by the inductive `TypeAnn`; a pydantic
`ModelField` carries an annotation and a `FieldInfo`; an lxml `Element` is
modelled by `XmlElement` with ordered attributes and ordered children.
Fallible Python code (assertions, raised errors, the IndexError reachable in
the list branch) is modelled with `Except String`.
-/

/-- One guardrails validator attached to a field: its rail alias, the result
of `to_xml_attrib`, and the name of its `on_fail` handler (absent when
`on_fail` is None). -/
structure Validator where
  rail_alias : String
  to_xml_attrib : String
  on_fail : Option String
deriving DecidableEq

/-- An entry of `field_info.gd_validators`: either a plain string (passed
through unchanged) or a `Validator` object. -/
inductive VSpec where
  | text (s : String)
  | spec (v : Validator)
deriving DecidableEq

/-- The parts of `pydantic.fields.FieldInfo` the source reads: `description`,
`gd_validators` (None or a list) and the guardrails `when` discriminator key
(`none` models both a missing attribute and None). -/
structure FieldInfo where
  description : Option String
  gd_validators : Option (List VSpec)
  when : Option String
deriving DecidableEq

mutual
/-- A Python type annotation, as observed through `get_origin` / `get_args` /
`issubclass` by the source: primitives, `list` / `List[...]`, `dict` /
`Dict[...]`, a pydantic `BaseModel` subclass, `NoneType`, a `Union[...]`,
or any other type (carried with a printable name). -/
inductive TypeAnn where
  | bool
  | date
  | float
  | int
  | str
  | time
  | httpUrl
  | noneType
  | pyList (args : List TypeAnn)
  | pyDict (args : List TypeAnn)
  | baseModel (m : PydModel)
  | union (members : List TypeAnn)
  | other (name : String)

/-- A pydantic `BaseModel` subclass: its `__fields__`, an ordered mapping of
field name to `ModelField`. -/
inductive PydModel where
  | mk (fields : List (String × ModelField))

/-- A `pydantic.fields.ModelField`: the declared type annotation plus the
field info. -/
inductive ModelField where
  | mk (ann : TypeAnn) (field_info : FieldInfo)
end

/-- The declared annotation of a `ModelField`. -/
def ModelField.ann : ModelField → TypeAnn
  | .mk a _ => a

/-- The `field_info` of a `ModelField`. -/
def ModelField.field_info : ModelField → FieldInfo
  | .mk _ i => i

/-- The `__fields__` of a model, in declaration order. -/
def PydModel.fields : PydModel → List (String × ModelField)
  | .mk fs => fs

/-- The argument type of `prepare_type_annotation` and
`create_xml_element_for_field`: either a `ModelField` or a bare type. -/
inductive FieldArg where
  | modelField (f : ModelField)
  | ty (t : TypeAnn)

/-- An lxml element: a tag, ordered attributes, ordered children. -/
inductive XmlElement where
  | mk (tag : String) (attrs : List (String × String)) (children : List XmlElement)

/-- The tag of an element. -/
def XmlElement.tag : XmlElement → String
  | .mk t _ _ => t

/-- The ordered attribute list of an element. -/
def XmlElement.attrs : XmlElement → List (String × String)
  | .mk _ a _ => a

/-- The ordered children of an element. -/
def XmlElement.children : XmlElement → List XmlElement
  | .mk _ _ c => c

/-- lxml `element.set(key, value)`: replace the value in place when the key
is already present, otherwise add the attribute at the end. -/
def XmlElement.set (e : XmlElement) (k v : String) : XmlElement :=
  match e with
  | .mk t a c =>
    if a.any (fun p => p.1 == k) then
      .mk t (a.map fun p => if p.1 == k then (k, v) else p) c
    else
      .mk t (a ++ [(k, v)]) c

/-- lxml `element.append(child)`. -/
def XmlElement.append (e : XmlElement) (child : XmlElement) : XmlElement :=
  match e with
  | .mk t a c => .mk t a (c ++ [child])

/-- Look an attribute up by key. -/
def XmlElement.getAttr (e : XmlElement) (k : String) : Option String :=
  (e.attrs.find? (fun p => p.1 == k)).map (fun p => p.2)

/-- The i-th child of an element, if any. -/
def XmlElement.childAt (e : XmlElement) (i : Nat) : Option XmlElement :=
  e.children[i]?

/-- `t is type(None)` check used by the union filter in
`prepare_type_annotation`. -/
def TypeAnn.isNoneType : TypeAnn → Bool
  | .noneType => true
  | _ => false

/-- Whether an annotation is a `Union[...]`. -/
def TypeAnn.isUnion : TypeAnn → Bool
  | .union _ => true
  | _ => false

/-- `is_pydantic_base_model`: `issubclass(t, BaseModel)`, False on
non-classes (the source swallows the `TypeError`). -/
def is_pydantic_base_model : TypeAnn → Bool
  | .baseModel _ => true
  | _ => false

/-- `typing.get_args`: the type arguments of a generic annotation, `()` on
anything non-generic (including the bare `list` / `dict` markers). -/
def get_args : TypeAnn → List TypeAnn
  | .pyList args => args
  | .pyDict args => args
  | .union ms => ms
  | _ => []

/-- The underlying annotation of a `FieldArg`: the `isinstance(x, ModelField)`
unwrapping step at the top of `prepare_type_annotation`. -/
def FieldArg.underlying : FieldArg → TypeAnn
  | .modelField f => f.ann
  | .ty t => t

/-- `prepare_type_annotation`: unwrap a `ModelField` to its annotation, then
strip a `Union` to its single non-None member; the failing `assert` (message
"Union type must have exactly one non-None type") is modelled as an error. -/
def prepare_type_ann (x : FieldArg) : Except String TypeAnn :=
  match x.underlying with
  | .union members =>
    match members.filter (fun m => !m.isNoneType) with
    | [m] => .ok m
    | _ => .error "Union type must have exactly one non-None type"
  | t => .ok t

/-- `is_list`: prepare the annotation, return False for a `BaseModel`, True
for `list` origin or the bare `list` marker (both are `TypeAnn.pyList`). -/
def is_list (x : FieldArg) : Except String Bool :=
  match prepare_type_ann x with
  | .error e => .error e
  | .ok t =>
    if is_pydantic_base_model t then .ok false
    else
      match t with
      | .pyList _ => .ok true
      | _ => .ok false

/-- `is_dict`: prepare the annotation, return True for a `BaseModel`, True
for `dict` origin or the bare `dict` marker (both are `TypeAnn.pyDict`). -/
def is_dict (x : FieldArg) : Except String Bool :=
  match prepare_type_ann x with
  | .error e => .error e
  | .ok t =>
    if is_pydantic_base_model t then .ok true
    else
      match t with
      | .pyDict _ => .ok true
      | _ => .ok false

/-- The rendering of a type annotation inside the Python f-string
`f"Unsupported type: ..."`. -/
def annString : TypeAnn → String
  | .bool => "bool"
  | .date => "date"
  | .float => "float"
  | .int => "int"
  | .str => "str"
  | .time => "time"
  | .httpUrl => "HttpUrl"
  | .noneType => "NoneType"
  | .pyList _ => "list"
  | .pyDict _ => "dict"
  | .baseModel _ => "BaseModel"
  | .union _ => "Union"
  | .other n => n

/-- `type_annotation_to_string`: classify an annotation as one of the nine
tag names, raising `ValueError` (modelled as `.error`) on anything else. -/
def type_ann_to_string (x : FieldArg) : Except String String :=
  match prepare_type_ann x with
  | .error e => .error e
  | .ok t =>
    match is_list (.ty t) with
    | .error e => .error e
    | .ok true => .ok "list"
    | .ok false =>
      match is_dict (.ty t) with
      | .error e => .error e
      | .ok true => .ok "object"
      | .ok false =>
        match t with
        | .bool => .ok "bool"
        | .date => .ok "date"
        | .float => .ok "float"
        | .int => .ok "integer"
        | .str => .ok "string"
        | .time => .ok "time"
        | .httpUrl => .ok "url"
        | t => .error ("Unsupported type: " ++ annString t)

/-- Insertion into a Python dict modelled as an ordered association list:
replace in place when the key exists, otherwise add at the end (insertion
order is preserved, as for `dict` since Python 3.7). -/
def dictInsert (d : List (String × String)) (k v : String) :
    List (String × String) :=
  if d.any (fun p => p.1 == k) then
    d.map (fun p => if p.1 == k then (k, v) else p)
  else d ++ [(k, v)]

/-- `add_validators_to_xml_element`: collect each validator's serialized form
into `format_prompt` and, for non-string validators, record
`rail_alias -> on_fail name` (default "noop"); when any prompt was collected,
set `format` to the "; "-join and one `on-fail-<alias>` attribute per entry. -/
def add_validators_to_xml_element : FieldArg → XmlElement → XmlElement
  | .ty _, element => element
  | .modelField f, element =>
    match f.field_info.gd_validators with
    | none => element
    | some gd_validators =>
      let acc := gd_validators.foldl
        (fun (acc : List String × List (String × String)) v =>
          match v with
          | .text s => (acc.1 ++ [s], acc.2)
          | .spec v =>
            let on_fail :=
              match v.on_fail with
              | some n => n
              | none => "noop"
            (acc.1 ++ [v.to_xml_attrib], dictInsert acc.2 v.rail_alias on_fail))
        ([], [])
      if acc.1.length > 0 then
        let element := element.set "format" (String.intercalate "; " acc.1)
        acc.2.foldl (fun e p => e.set ("on-fail-" ++ p.1) p.2) element
      else element

/-- Lines 263-277 of the source, the attribute-setting prefix of
`create_xml_element_for_field`: `E(field_type)`, the `name` attribute when a
truthy name was supplied, the validator attributes, and the `description`
attribute of a `ModelField`. -/
def initial_field_element (field : FieldArg) (field_name : Option String)
    (field_type : String) : XmlElement :=
  let element := XmlElement.mk field_type [] []
  let element :=
    match field_name with
    | some n => if n == "" then element else element.set "name" n
    | none => element
  let element := add_validators_to_xml_element field element
  match field with
  | .modelField f =>
    match f.field_info.description with
    | some d => element.set "description" d
    | none => element
  | .ty _ => element

/-- Truthiness of `field.field_info.when` (`hasattr` + non-empty string). -/
def whenTruthy (f : ModelField) : Bool :=
  match f.field_info.when with
  | some w => w != ""
  | none => false

/-- One step of `choice_elements[when].append((field_name, field))` on the
insertion-ordered association list modelling the `defaultdict(list)`. -/
def insertAppend (groups : List (String × List (String × ModelField)))
    (w : String) (p : String × ModelField) :
    List (String × List (String × ModelField)) :=
  match groups with
  | [] => [(w, [p])]
  | (k, l) :: rest =>
    if k == w then (k, l ++ [p]) :: rest else (k, l) :: insertAppend rest w p

/-- The `choice_elements` defaultdict built by the first loop of
`create_xml_element_for_base_model`: fields with a truthy `when`, grouped by
the `when` value, keys in first-seen order, each group in declaration
order. -/
def groupWhens (fields : List (String × ModelField)) :
    List (String × List (String × ModelField)) :=
  fields.foldl
    (fun groups p =>
      match p.2.field_info.when with
      | some w => if w != "" then insertAppend groups w p else groups
      | none => groups)
    []

/-- The `case_elements` set built by the same loop: the names of the fields
with a truthy `when` (list membership is all the set is used for). -/
def case_elements_of (fields : List (String × ModelField)) : List String :=
  fields.foldl (fun acc p => if whenTruthy p.2 then acc ++ [p.1] else acc) []

/-! ### Termination measures for the mutual tree builders -/

mutual
/-- Weight of a type annotation, used as a termination measure. -/
def annSize : TypeAnn → Nat
  | .pyList args => 1 + annListSize args
  | .pyDict args => 1 + annListSize args
  | .union ms => 1 + annListSize ms
  | .baseModel m => 1 + modelSize m
  | _ => 1

/-- Weight of a list of annotations. -/
def annListSize : List TypeAnn → Nat
  | [] => 0
  | a :: rest => 1 + annSize a + annListSize rest

/-- Weight of a model. -/
def modelSize : PydModel → Nat
  | .mk fs => 1 + fieldsSize fs

/-- Weight of a `__fields__` list. -/
def fieldsSize : List (String × ModelField) → Nat
  | [] => 0
  | (_, f) :: rest => 4 + fieldSize f + fieldsSize rest

/-- Weight of a single field. -/
def fieldSize : ModelField → Nat
  | .mk a _ => 1 + annSize a
end

/-- Weight of a `FieldArg`. -/
def faSize : FieldArg → Nat
  | .modelField f => 1 + fieldSize f
  | .ty t => 1 + annSize t

/-- Weight of one discriminator group's field list. -/
def casesSize : List (String × ModelField) → Nat
  | [] => 0
  | (_, f) :: rest => 3 + fieldSize f + casesSize rest

/-- Weight of the grouped `choice_elements` structure. -/
def groupsSize : List (String × List (String × ModelField)) → Nat
  | [] => 0
  | (_, l) :: rest => 1 + casesSize l + groupsSize rest

theorem annSize_lt_annListSize {a : TypeAnn} {l : List TypeAnn}
    (h : a ∈ l) : annSize a < annListSize l := by
  induction l with
  | nil => cases h
  | cons b rest ih =>
    rcases List.mem_cons.mp h with rfl | h
    · simp [annListSize]; omega
    · have := ih h
      simp [annListSize]; omega

theorem annSize_lt_of_mem_args {a t : TypeAnn} (h : a ∈ get_args t) :
    annSize a < annSize t := by
  cases t <;> simp only [get_args] at h
  case pyList args =>
    have := annSize_lt_annListSize h
    simp [annSize]; omega
  case pyDict args =>
    have := annSize_lt_annListSize h
    simp [annSize]; omega
  case union ms =>
    have := annSize_lt_annListSize h
    simp [annSize]; omega
  all_goals simp at h

theorem underlying_annSize_lt_faSize (x : FieldArg) :
    annSize x.underlying < faSize x := by
  cases x with
  | modelField f =>
    cases f with
    | mk a i =>
      simp only [FieldArg.underlying, faSize, fieldSize, ModelField.ann]
      omega
  | ty t =>
    simp only [FieldArg.underlying, faSize]
    omega

theorem prepare_annSize {x : FieldArg} {t : TypeAnn}
    (h : prepare_type_ann x = .ok t) : annSize t < faSize x := by
  have hu := underlying_annSize_lt_faSize x
  unfold prepare_type_ann at h
  cases hx : x.underlying <;> rw [hx] at h hu <;> try simp at h
  case union members =>
    cases hf : members.filter (fun m => !m.isNoneType) with
    | nil => rw [hf] at h; simp at h
    | cons m rest =>
      cases rest with
      | nil =>
        rw [hf] at h; simp at h; subst h
        have hmem : m ∈ members :=
          List.mem_of_mem_filter (hf ▸ List.mem_singleton_self m)
        have := annSize_lt_annListSize hmem
        simp only [annSize] at hu
        omega
      | cons m2 rest2 => rw [hf] at h; simp at h
  all_goals (subst h; exact hu)

theorem fieldsSize_lt_modelSize (m : PydModel) :
    fieldsSize m.fields < modelSize m := by
  cases m with
  | mk fs => simp [PydModel.fields, modelSize]

theorem casesSize_append (l : List (String × ModelField))
    (p : String × ModelField) :
    casesSize (l ++ [p]) = casesSize l + (3 + fieldSize p.2) := by
  induction l with
  | nil => cases p; simp [casesSize]
  | cons q rest ih => cases q; simp [casesSize, ih]; omega

theorem groupsSize_insertAppend
    (gs : List (String × List (String × ModelField))) (w : String)
    (p : String × ModelField) :
    groupsSize (insertAppend gs w p) ≤ groupsSize gs + 4 + fieldSize p.2 := by
  induction gs with
  | nil => cases p; simp [insertAppend, groupsSize, casesSize]; omega
  | cons g rest ih =>
    cases g with
    | mk k l =>
      by_cases hk : k == w
      · simp [insertAppend, hk, groupsSize, casesSize_append]; omega
      · simp [insertAppend, hk, groupsSize]; omega

theorem groupWhens_foldl_size (fs : List (String × ModelField))
    (gs : List (String × List (String × ModelField))) :
    groupsSize (fs.foldl
      (fun groups p =>
        match p.2.field_info.when with
        | some w => if w != "" then insertAppend groups w p else groups
        | none => groups)
      gs) ≤ groupsSize gs + fieldsSize fs := by
  induction fs generalizing gs with
  | nil => simp [fieldsSize]
  | cons p rest ih =>
    cases p with
    | mk n f =>
      simp only [List.foldl_cons]
      rcases hw : f.field_info.when with _ | w
      · have := ih gs
        simp [hw, fieldsSize] at *
        omega
      · by_cases hwe : w != ""
        · have h1 := groupsSize_insertAppend gs w (n, f)
          have h2 := ih (insertAppend gs w (n, f))
          simp [hw, hwe, fieldsSize] at *
          omega
        · have := ih gs
          simp [hw, hwe, fieldsSize] at *
          omega

theorem groupWhens_size (fs : List (String × ModelField)) :
    groupsSize (groupWhens fs) ≤ fieldsSize fs := by
  have := groupWhens_foldl_size fs []
  simpa [groupWhens, groupsSize] using this

theorem annSize_head_of_get_args {t a : TypeAnn} {l : List TypeAnn}
    (h : get_args t = a :: l) : annSize a < annSize t := by
  apply annSize_lt_of_mem_args
  rw [h]
  exact List.mem_cons_self a l

theorem annSize_snd_of_get_args {t a b : TypeAnn}
    (h : get_args t = [a, b]) : annSize b < annSize t := by
  apply annSize_lt_of_mem_args
  rw [h]
  simp

/-! ### The recursive tree builder -/

mutual
/-- `create_xml_element_for_field`: classify the field's type, create the
element, set `name` (when truthy), validators and `description`, then build
children for `list` and `object` tags. The fall-through after the
`len(inner_type) == 0` comment-and-`pass` is modelled faithfully: on a list
with no declared element type `inner_type[0]` raises IndexError ("tuple
index out of range"). -/
def create_xml_element_for_field (field : FieldArg)
    (field_name : Option String) : Except String XmlElement :=
  match type_ann_to_string field with
  | .error e => .error e
  | .ok field_type =>
    let element := initial_field_element field field_name field_type
    if field_type == "list" || field_type == "object" then
      match hprep : prepare_type_ann field with
      | .error e => .error e
      | .ok type_ann =>
        match is_list (.ty type_ann) with
        | .error e => .error e
        | .ok true =>
          match hargs : get_args type_ann with
          | [] => .error "tuple index out of range"
          | .baseModel inner_model :: _ =>
            match create_xml_element_for_base_model inner_model none with
            | .error e => .error e
            | .ok object_element => .ok (element.append object_element)
          | inner0 :: _ =>
            match create_xml_element_for_field (.ty inner0) none with
            | .error e => .error e
            | .ok inner_element => .ok (element.append inner_element)
        | .ok false =>
          match is_dict (.ty type_ann) with
          | .error e => .error e
          | .ok true =>
            match hta : type_ann with
            | .baseModel m => create_xml_element_for_base_model m (some element)
            | _ =>
              match hargs2 : get_args type_ann with
              | [key_type, val_type] =>
                match key_type with
                | .str =>
                  match create_xml_element_for_field (.ty val_type) none with
                  | .error e => .error e
                  | .ok inner_element => .ok (element.append inner_element)
                | _ => .error "Only string keys are supported for dicts"
              | _ => .ok element
          | .ok false => .error ("Unsupported type: " ++ annString type_ann)
    else .ok element
termination_by 2 * faSize field
decreasing_by
  all_goals
    have h1 := prepare_annSize hprep
  all_goals
    try subst_vars
  all_goals
    first
    | (rename get_args _ = [_, _] => hgx
       have h2 := annSize_snd_of_get_args hgx
       simp only [annSize, faSize] at *
       omega)
    | (rename get_args _ = _ :: _ => hgx
       have h2 := annSize_head_of_get_args hgx
       simp only [annSize, faSize] at *
       omega)
    | (simp only [annSize, faSize] at *
       omega)

/-- `create_xml_element_for_base_model`: create (or reuse) the accumulator
element, group the fields carrying a truthy `when`, append the elements of
the remaining fields in declaration order, then append one `choice` element
per discriminator key. -/
def create_xml_element_for_base_model (model : PydModel)
    (element : Option XmlElement) : Except String XmlElement :=
  let element :=
    match element with
    | none => XmlElement.mk "object" [] []
    | some e => e
  let choice_elements := groupWhens model.fields
  let case_elements := case_elements_of model.fields
  match buildDirectFields model.fields choice_elements case_elements element with
  | .error e => .error e
  | .ok element => buildChoices choice_elements element
termination_by 2 * modelSize model + 1
decreasing_by
  all_goals
    have h1 := groupWhens_size model.fields
    have h2 := fieldsSize_lt_modelSize model
    omega

/-- The second loop of `create_xml_element_for_base_model`: append the
element of every field whose name is neither a discriminator key nor a
grouped field name, in declaration order. -/
def buildDirectFields (fields : List (String × ModelField))
    (choice_elements : List (String × List (String × ModelField)))
    (case_elements : List String) (element : XmlElement) :
    Except String XmlElement :=
  match fields with
  | [] => .ok element
  | (field_name, field) :: rest =>
    if choice_elements.any (fun g => g.1 == field_name)
        || case_elements.contains field_name then
      buildDirectFields rest choice_elements case_elements element
    else
      match create_xml_element_for_field (.modelField field) (some field_name) with
      | .error e => .error e
      | .ok field_element =>
        buildDirectFields rest choice_elements case_elements
          (element.append field_element)
termination_by 2 * fieldsSize fields
decreasing_by
  all_goals
    simp only [faSize, fieldsSize]
    omega

/-- The third loop of `create_xml_element_for_base_model`: one `choice`
element per discriminator key (first-seen order), with its fixed
`on-fail-choice="exception"` attribute and its `case` children. -/
def buildChoices (groups : List (String × List (String × ModelField)))
    (element : XmlElement) : Except String XmlElement :=
  match groups with
  | [] => .ok element
  | (whenValue, discriminator_fields) :: rest =>
    let choice_element := XmlElement.mk "choice" [("name", whenValue)] []
    let choice_element := choice_element.set "on-fail-choice" "exception"
    match buildCases discriminator_fields choice_element with
    | .error e => .error e
    | .ok choice_element => buildChoices rest (element.append choice_element)
termination_by 2 * groupsSize groups + 1
decreasing_by
  all_goals
    simp only [groupsSize]
    omega

/-- The inner loop over one discriminator group: a `case` element named
after the field, whose sole child is the field's element built WITH the
field name (the source passes `field_name` here). -/
def buildCases (discriminator_fields : List (String × ModelField))
    (choice_element : XmlElement) : Except String XmlElement :=
  match discriminator_fields with
  | [] => .ok choice_element
  | (field_name, field) :: rest =>
    match create_xml_element_for_field (.modelField field) (some field_name) with
    | .error e => .error e
    | .ok field_element =>
      let case_element := XmlElement.mk "case" [("name", field_name)] []
      let case_element := case_element.append field_element
      buildCases rest (choice_element.append case_element)
termination_by 2 * casesSize discriminator_fields
decreasing_by
  all_goals
    simp only [faSize, casesSize]
    omega
end

/-! ### Helper facts about the normalizer -/

theorem prepare_of_underlying {x : FieldArg} {t : TypeAnn}
    (hx : x.underlying = t) (h : t.isUnion = false) :
    prepare_type_ann x = .ok t := by
  unfold prepare_type_ann
  rw [hx]
  cases t <;> simp_all [TypeAnn.isUnion]

/-- Whether the top level of an annotation satisfies the invariant that
Python's `typing` module maintains for every constructible annotation:
the members of a `Union` are never themselves unions (`typing` flattens
nested unions at construction time). -/
def flatUnion : TypeAnn → Bool
  | .union ms => ms.all (fun m => !m.isUnion)
  | _ => true

/-- A `FieldArg` whose underlying annotation is representable in Python:
see `flatUnion`. -/
def representableArg (x : FieldArg) : Bool := flatUnion x.underlying

/-- C3: the type normalizer is idempotent. For every representable input
(a bare annotation or a Field Descriptor wrapper, unions flattened as
Python's `typing` guarantees), feeding the result of
`prepare_type_annotation` back into it changes nothing; in the error case
both sides are the same error. -/
theorem claim_C3_normalize_idempotent (x : FieldArg)
    (h : representableArg x = true) :
    (prepare_type_ann x).bind (fun t => prepare_type_ann (.ty t)) =
      prepare_type_ann x := by
  cases hx : x.underlying with
  | union members =>
    have hpre : prepare_type_ann x =
        match members.filter (fun m => !m.isNoneType) with
        | [m] => .ok m
        | _ => .error "Union type must have exactly one non-None type" := by
      unfold prepare_type_ann
      rw [hx]
    cases hf : members.filter (fun m => !m.isNoneType) with
    | nil =>
      rw [hf] at hpre
      rw [hpre]
      rfl
    | cons m rest =>
      cases rest with
      | nil =>
        rw [hf] at hpre
        rw [hpre]
        have hmem : m ∈ members :=
          List.mem_of_mem_filter (hf ▸ List.mem_singleton_self m)
        have hmu : m.isUnion = false := by
          unfold representableArg at h
          rw [hx] at h
          simp only [flatUnion, List.all_eq_true] at h
          simpa using h m hmem
        simp only [Except.bind]
        exact prepare_of_underlying rfl hmu
      | cons m2 rest2 =>
        rw [hf] at hpre
        rw [hpre]
        rfl
  | bool =>
    rw [prepare_of_underlying hx rfl]
    simp only [Except.bind]
    exact prepare_of_underlying rfl rfl
  | date =>
    rw [prepare_of_underlying hx rfl]
    simp only [Except.bind]
    exact prepare_of_underlying rfl rfl
  | float =>
    rw [prepare_of_underlying hx rfl]
    simp only [Except.bind]
    exact prepare_of_underlying rfl rfl
  | int =>
    rw [prepare_of_underlying hx rfl]
    simp only [Except.bind]
    exact prepare_of_underlying rfl rfl
  | str =>
    rw [prepare_of_underlying hx rfl]
    simp only [Except.bind]
    exact prepare_of_underlying rfl rfl
  | time =>
    rw [prepare_of_underlying hx rfl]
    simp only [Except.bind]
    exact prepare_of_underlying rfl rfl
  | httpUrl =>
    rw [prepare_of_underlying hx rfl]
    simp only [Except.bind]
    exact prepare_of_underlying rfl rfl
  | noneType =>
    rw [prepare_of_underlying hx rfl]
    simp only [Except.bind]
    exact prepare_of_underlying rfl rfl
  | pyList args =>
    rw [prepare_of_underlying hx rfl]
    simp only [Except.bind]
    exact prepare_of_underlying rfl rfl
  | pyDict args =>
    rw [prepare_of_underlying hx rfl]
    simp only [Except.bind]
    exact prepare_of_underlying rfl rfl
  | baseModel m =>
    rw [prepare_of_underlying hx rfl]
    simp only [Except.bind]
    exact prepare_of_underlying rfl rfl
  | other n =>
    rw [prepare_of_underlying hx rfl]
    simp only [Except.bind]
    exact prepare_of_underlying rfl rfl

/-- Witness for C3 at the concrete input `Union[int, None]`. -/
theorem claim_C3_witness :
    representableArg (.ty (.union [.int, .noneType])) = true ∧
    (prepare_type_ann (.ty (.union [.int, .noneType]))).bind
        (fun t => prepare_type_ann (.ty t)) =
      prepare_type_ann (.ty (.union [.int, .noneType])) :=
  ⟨rfl, claim_C3_normalize_idempotent (.ty (.union [.int, .noneType])) rfl⟩

/-- C4: on a union, the normalizer returns the single non-None member when
exactly one exists and otherwise fails with the ambiguous-union assertion
error; in particular a union of three non-None members fails. -/
theorem claim_C4_union_stripping (ms : List TypeAnn) :
    ((ms.filter (fun m => !m.isNoneType)).length ≠ 1 →
      prepare_type_ann (.ty (.union ms)) =
        .error "Union type must have exactly one non-None type") ∧
    (∀ t, ms.filter (fun m => !m.isNoneType) = [t] →
      prepare_type_ann (.ty (.union ms)) = .ok t) ∧
    (∀ a b c : TypeAnn, ms = [a, b, c] → a.isNoneType = false →
      b.isNoneType = false → c.isNoneType = false →
      prepare_type_ann (.ty (.union ms)) =
        .error "Union type must have exactly one non-None type") := by
  refine ⟨?_, ?_, ?_⟩
  · intro h
    unfold prepare_type_ann
    simp only [FieldArg.underlying]
    cases hf : ms.filter (fun m => !m.isNoneType) with
    | nil => rfl
    | cons m rest =>
      cases rest with
      | nil => rw [hf] at h; simp at h
      | cons m2 rest2 => rfl
  · intro t hf
    unfold prepare_type_ann
    simp only [FieldArg.underlying]
    rw [hf]
  · intro a b c hms ha hb hc
    subst hms
    unfold prepare_type_ann
    simp only [FieldArg.underlying]
    have hfil : [a, b, c].filter (fun m => !m.isNoneType) = [a, b, c] := by
      simp [List.filter, ha, hb, hc]
    rw [hfil]

/-- Witness for C4: `Union[int, str, bool]` fails, `Union[int, None]`
returns `int`. -/
theorem claim_C4_witness :
    prepare_type_ann (.ty (.union [.int, .str, .bool])) =
      .error "Union type must have exactly one non-None type" ∧
    prepare_type_ann (.ty (.union [.int, .noneType])) = .ok .int :=
  ⟨(claim_C4_union_stripping [.int, .str, .bool]).2.2 .int .str .bool
      rfl rfl rfl rfl,
   (claim_C4_union_stripping [.int, .noneType]).2.1 .int rfl⟩

/-- The shapes the classifier knows: list, mapping/record, and the seven
scalar kinds. -/
def isKnownShape : TypeAnn → Bool
  | .pyList _ => true
  | .pyDict _ => true
  | .baseModel _ => true
  | .bool => true
  | .date => true
  | .float => true
  | .int => true
  | .str => true
  | .time => true
  | .httpUrl => true
  | _ => false

/-- C5: when the normalized annotation is none of the known shapes, the
classifier fails with an error naming the offending type and never returns
a guessed tag. (The non-union hypothesis holds for every normalized form of
a representable input, see `flatUnion`.) -/
theorem claim_C5_unsupported_type (x : FieldArg) (t : TypeAnn)
    (hprep : prepare_type_ann x = .ok t)
    (hshape : isKnownShape t = false) (hnu : t.isUnion = false) :
    type_ann_to_string x = .error ("Unsupported type: " ++ annString t) := by
  unfold type_ann_to_string
  rw [hprep]
  cases t <;> first
    | rfl
    | simp_all [isKnownShape, TypeAnn.isUnion]

/-- Witness for C5 at the concrete unsupported type `set`. -/
theorem claim_C5_witness :
    prepare_type_ann (.ty (.other "set")) = .ok (.other "set") ∧
    isKnownShape (.other "set") = false ∧
    type_ann_to_string (.ty (.other "set")) =
      .error "Unsupported type: set" :=
  ⟨rfl, rfl,
   claim_C5_unsupported_type (.ty (.other "set")) (.other "set") rfl rfl rfl⟩

/-! ### Validator encoder -/

/-- C8: a field with exactly two validators, rule aliases "length" (action
"reask") and "valid-choices" (no action), gets `format` set to the two
serialized forms joined by "; ", `on-fail-length="reask"`,
`on-fail-valid-choices="noop"`, and no other attribute is touched: the
result is exactly the three-set chain on the incoming element. -/
theorem claim_C8_validator_merge (lrepr crepr : String) (f : ModelField)
    (e : XmlElement)
    (hv : f.field_info.gd_validators = some
      [.spec ⟨"length", lrepr, some "reask"⟩,
       .spec ⟨"valid-choices", crepr, none⟩]) :
    add_validators_to_xml_element (.modelField f) e =
      ((e.set "format" (String.intercalate "; " [lrepr, crepr])).set
        "on-fail-length" "reask").set "on-fail-valid-choices" "noop" := by
  simp only [add_validators_to_xml_element, hv]
  rfl

/-- The "length" validator used in the C8 witness. -/
def lengthV : Validator := ⟨"length", "length: 2 10", some "reask"⟩

/-- The "valid-choices" validator used in the C8 witness. -/
def choicesV : Validator := ⟨"valid-choices", "valid-choices: a b", none⟩

/-- A field carrying the two C8 validators. -/
def f8 : ModelField := .mk .str ⟨none, some [.spec lengthV, .spec choicesV], none⟩

/-- Witness for C8 on a fresh string element. -/
theorem claim_C8_witness :
    add_validators_to_xml_element (.modelField f8) (XmlElement.mk "string" [] []) =
      XmlElement.mk "string"
        [("format", "length: 2 10; valid-choices: a b"),
         ("on-fail-length", "reask"),
         ("on-fail-valid-choices", "noop")] [] :=
  (claim_C8_validator_merge "length: 2 10" "valid-choices: a b" f8
    (XmlElement.mk "string" [] []) rfl).trans rfl

/-! ### The list branch on a bare list: the reachable IndexError (C1) -/

/-- C1 (code bug): on a field classified as list whose normalized type has
no type arguments, `create_xml_element_for_field` does NOT return a
childless list element: the `len(inner_type) == 0` branch only executes
`pass` and the following `inner_type[0]` raises IndexError. Evaluating the
embedding at the failing input shows the error. -/
theorem claim_C1_bare_list_raises :
    create_xml_element_for_field (.ty (.pyList [])) (some "items") =
      .error "tuple index out of range" := by
  simp [create_xml_element_for_field, type_ann_to_string, prepare_type_ann,
    FieldArg.underlying, is_list, is_dict, is_pydantic_base_model, get_args,
    initial_field_element, add_validators_to_xml_element, XmlElement.set]

/-! ### Keyed mappings (C6) -/

/-- C6: a field whose normalized type is a keyed mapping with two type
arguments fails with the string-keys assertion when the key type is not
`str`, and with key type `str` recursively builds an unnamed element for
the value type and appends it as the sole child. -/
theorem claim_C6_dict_keys (k v : TypeAnn) :
    (k ≠ .str →
      create_xml_element_for_field (.ty (.pyDict [k, v])) none =
        .error "Only string keys are supported for dicts") ∧
    (∀ c, create_xml_element_for_field (.ty v) none = .ok c →
      create_xml_element_for_field (.ty (.pyDict [.str, v])) none =
        .ok (XmlElement.mk "object" [] [c])) := by
  constructor
  · intro hk
    cases k with
    | str => exact absurd rfl hk
    | bool =>
      simp [create_xml_element_for_field, type_ann_to_string, prepare_type_ann,
        FieldArg.underlying, is_list, is_dict, is_pydantic_base_model, get_args,
        initial_field_element, add_validators_to_xml_element]
    | date =>
      simp [create_xml_element_for_field, type_ann_to_string, prepare_type_ann,
        FieldArg.underlying, is_list, is_dict, is_pydantic_base_model, get_args,
        initial_field_element, add_validators_to_xml_element]
    | float =>
      simp [create_xml_element_for_field, type_ann_to_string, prepare_type_ann,
        FieldArg.underlying, is_list, is_dict, is_pydantic_base_model, get_args,
        initial_field_element, add_validators_to_xml_element]
    | int =>
      simp [create_xml_element_for_field, type_ann_to_string, prepare_type_ann,
        FieldArg.underlying, is_list, is_dict, is_pydantic_base_model, get_args,
        initial_field_element, add_validators_to_xml_element]
    | time =>
      simp [create_xml_element_for_field, type_ann_to_string, prepare_type_ann,
        FieldArg.underlying, is_list, is_dict, is_pydantic_base_model, get_args,
        initial_field_element, add_validators_to_xml_element]
    | httpUrl =>
      simp [create_xml_element_for_field, type_ann_to_string, prepare_type_ann,
        FieldArg.underlying, is_list, is_dict, is_pydantic_base_model, get_args,
        initial_field_element, add_validators_to_xml_element]
    | noneType =>
      simp [create_xml_element_for_field, type_ann_to_string, prepare_type_ann,
        FieldArg.underlying, is_list, is_dict, is_pydantic_base_model, get_args,
        initial_field_element, add_validators_to_xml_element]
    | pyList args =>
      simp [create_xml_element_for_field, type_ann_to_string, prepare_type_ann,
        FieldArg.underlying, is_list, is_dict, is_pydantic_base_model, get_args,
        initial_field_element, add_validators_to_xml_element]
    | pyDict args =>
      simp [create_xml_element_for_field, type_ann_to_string, prepare_type_ann,
        FieldArg.underlying, is_list, is_dict, is_pydantic_base_model, get_args,
        initial_field_element, add_validators_to_xml_element]
    | baseModel m =>
      simp [create_xml_element_for_field, type_ann_to_string, prepare_type_ann,
        FieldArg.underlying, is_list, is_dict, is_pydantic_base_model, get_args,
        initial_field_element, add_validators_to_xml_element]
    | union ms =>
      simp [create_xml_element_for_field, type_ann_to_string, prepare_type_ann,
        FieldArg.underlying, is_list, is_dict, is_pydantic_base_model, get_args,
        initial_field_element, add_validators_to_xml_element]
    | other n =>
      simp [create_xml_element_for_field, type_ann_to_string, prepare_type_ann,
        FieldArg.underlying, is_list, is_dict, is_pydantic_base_model, get_args,
        initial_field_element, add_validators_to_xml_element]
  · intro c hc
    rw [create_xml_element_for_field.eq_def]
    simp only [type_ann_to_string, prepare_type_ann, FieldArg.underlying,
      is_list, is_dict, is_pydantic_base_model, get_args,
      initial_field_element, add_validators_to_xml_element, hc,
      XmlElement.append]
    simp

/-- Witness for C6: integer keys fail, string keys with integer values
produce an object element whose sole child is the integer element. -/
theorem claim_C6_witness :
    create_xml_element_for_field (.ty (.pyDict [.int, .int])) none =
      .error "Only string keys are supported for dicts" ∧
    create_xml_element_for_field (.ty (.pyDict [.str, .int])) none =
      .ok (XmlElement.mk "object" [] [XmlElement.mk "integer" [] []]) :=
  ⟨(claim_C6_dict_keys .int .int).1 (by intro h; cases h),
   (claim_C6_dict_keys .str .int).2 (XmlElement.mk "integer" [] [])
     (by simp [create_xml_element_for_field, type_ann_to_string,
       prepare_type_ann, FieldArg.underlying, is_list, is_dict,
       is_pydantic_base_model, get_args, initial_field_element,
       add_validators_to_xml_element])⟩

/-! ### Ordering of the direct pass (C7) -/

/-- The elements of a field list, built with `build_field(field, name)` one
by one in declaration order (spec-side reference for the ordering claim). -/
def build_fields_in_order : List (String × ModelField) →
    Except String (List XmlElement)
  | [] => .ok []
  | (field_name, field) :: rest =>
    match create_xml_element_for_field (.modelField field) (some field_name) with
    | .error e => .error e
    | .ok e =>
      match build_fields_in_order rest with
      | .error e2 => .error e2
      | .ok es => .ok (e :: es)

theorem groupWhens_eq_nil {fs : List (String × ModelField)}
    (h : ∀ p ∈ fs, p.2.field_info.when = none) : groupWhens fs = [] := by
  have gen : ∀ (fs : List (String × ModelField))
      (g : List (String × List (String × ModelField))),
      (∀ p ∈ fs, p.2.field_info.when = none) →
      fs.foldl
        (fun groups p =>
          match p.2.field_info.when with
          | some w => if w != "" then insertAppend groups w p else groups
          | none => groups) g = g := by
    intro fs
    induction fs with
    | nil => intro g _; rfl
    | cons p rest ih =>
      intro g h
      have hp : p.2.field_info.when = none := h p (List.mem_cons_self p rest)
      simp only [List.foldl_cons, hp]
      exact ih g (fun q hq => h q (List.mem_cons_of_mem p hq))
  exact gen fs [] h

theorem case_elements_eq_nil {fs : List (String × ModelField)}
    (h : ∀ p ∈ fs, p.2.field_info.when = none) : case_elements_of fs = [] := by
  have gen : ∀ (fs : List (String × ModelField)) (acc : List String),
      (∀ p ∈ fs, p.2.field_info.when = none) →
      fs.foldl (fun acc p => if whenTruthy p.2 then acc ++ [p.1] else acc)
        acc = acc := by
    intro fs
    induction fs with
    | nil => intro acc _; rfl
    | cons p rest ih =>
      intro acc h
      have hp : p.2.field_info.when = none := h p (List.mem_cons_self p rest)
      simp only [List.foldl_cons, whenTruthy, hp]
      exact ih acc (fun q hq => h q (List.mem_cons_of_mem p hq))
  exact gen fs [] h

theorem buildDirectFields_no_groups (fs : List (String × ModelField))
    (e0 : XmlElement) :
    buildDirectFields fs [] [] e0 =
      (build_fields_in_order fs).map
        (fun cs => XmlElement.mk e0.tag e0.attrs (e0.children ++ cs)) := by
  induction fs generalizing e0 with
  | nil =>
    cases e0
    simp [buildDirectFields, build_fields_in_order, Except.map,
      XmlElement.tag, XmlElement.attrs, XmlElement.children]
  | cons p rest ih =>
    cases p with
    | mk n f =>
      rw [buildDirectFields.eq_def]
      cases hc : create_xml_element_for_field (.modelField f) (some n) with
      | error e =>
        simp [build_fields_in_order, hc, Except.map]
      | ok fe =>
        cases hb : build_fields_in_order rest with
        | error e2 =>
          simp [build_fields_in_order, hc, hb, ih, Except.map]
        | ok es =>
          cases e0 with
          | mk t a c =>
            simp [build_fields_in_order, hc, hb, ih, Except.map,
              XmlElement.append, XmlElement.tag, XmlElement.attrs,
              XmlElement.children]

/-- C7: on a model with no discriminator keys, `build_object` produces an
`object` element whose children are exactly the per-field elements in
declaration order (and, the embedding being a pure function, repeated calls
agree definitionally). -/
theorem claim_C7_field_order (fs : List (String × ModelField))
    (h : ∀ p ∈ fs, p.2.field_info.when = none) :
    create_xml_element_for_base_model (.mk fs) none =
      (build_fields_in_order fs).map (fun cs => XmlElement.mk "object" [] cs) := by
  rw [create_xml_element_for_base_model.eq_def]
  simp only [PydModel.fields, groupWhens_eq_nil h, case_elements_eq_nil h]
  rw [buildDirectFields_no_groups]
  cases hb : build_fields_in_order fs with
  | error e => simp [Except.map]
  | ok cs =>
    simp [Except.map, buildChoices, XmlElement.tag, XmlElement.attrs,
      XmlElement.children]

/-- Three discriminator-free fields for the C7 witness. -/
def fields7 : List (String × ModelField) :=
  [("a", .mk .str ⟨none, none, none⟩),
   ("b", .mk .int ⟨none, none, none⟩),
   ("c", .mk .bool ⟨none, none, none⟩)]

/-- Witness for C7 on a three-field model. -/
theorem claim_C7_witness :
    create_xml_element_for_base_model (.mk fields7) none =
      (build_fields_in_order fields7).map
        (fun cs => XmlElement.mk "object" [] cs) :=
  claim_C7_field_order fields7 (by decide)

/-! ### Attribute preservation through the accumulator (C9) -/

theorem append_tag (e c : XmlElement) : (e.append c).tag = e.tag := by
  cases e; rfl

theorem append_attrs (e c : XmlElement) : (e.append c).attrs = e.attrs := by
  cases e; rfl

theorem buildDirectFields_preserves
    (fs : List (String × ModelField))
    (gs : List (String × List (String × ModelField)))
    (ns : List String) (e0 e : XmlElement)
    (h : buildDirectFields fs gs ns e0 = .ok e) :
    e.tag = e0.tag ∧ e.attrs = e0.attrs := by
  induction fs generalizing e0 with
  | nil =>
    simp [buildDirectFields] at h
    subst h
    exact ⟨rfl, rfl⟩
  | cons p rest ih =>
    cases p with
    | mk n f =>
      rw [buildDirectFields.eq_def] at h
      simp only at h
      by_cases hskip : (gs.any (fun g => g.1 == n) || ns.contains n) = true
      · rw [if_pos hskip] at h
        exact ih e0 h
      · rw [if_neg hskip] at h
        cases hc : create_xml_element_for_field (.modelField f) (some n) with
        | error e2 => rw [hc] at h; cases h
        | ok fe =>
          rw [hc] at h
          have := ih (e0.append fe) h
          rw [append_tag, append_attrs] at this
          exact this

theorem buildChoices_preserves
    (gs : List (String × List (String × ModelField))) (e0 e : XmlElement)
    (h : buildChoices gs e0 = .ok e) :
    e.tag = e0.tag ∧ e.attrs = e0.attrs := by
  induction gs generalizing e0 with
  | nil =>
    simp [buildChoices] at h
    subst h
    exact ⟨rfl, rfl⟩
  | cons g rest ih =>
    cases g with
    | mk w dfs =>
      rw [buildChoices.eq_def] at h
      simp only at h
      cases hc : buildCases dfs
          ((XmlElement.mk "choice" [("name", w)] []).set
            "on-fail-choice" "exception") with
      | error e2 => rw [hc] at h; cases h
      | ok ce =>
        rw [hc] at h
        have := ih (e0.append ce) h
        rw [append_tag, append_attrs] at this
        exact this

theorem base_model_acc_preserves (m : PydModel) (e0 e : XmlElement)
    (h : create_xml_element_for_base_model m (some e0) = .ok e) :
    e.tag = e0.tag ∧ e.attrs = e0.attrs := by
  rw [create_xml_element_for_base_model.eq_def] at h
  simp only at h
  cases hd : buildDirectFields m.fields (groupWhens m.fields)
      (case_elements_of m.fields) e0 with
  | error e2 => rw [hd] at h; cases h
  | ok el =>
    rw [hd] at h
    have h1 := buildDirectFields_preserves m.fields (groupWhens m.fields)
      (case_elements_of m.fields) e0 el hd
    have h2 := buildChoices_preserves (groupWhens m.fields) el e h
    exact ⟨h2.1.trans h1.1, h2.2.trans h1.2⟩

/-- C9: for a named field whose normalized type is a nested record, the
builder hands the element with every attribute already set (name,
validators, description: `initial_field_element`) to `build_object` as the
accumulator, and the accumulator's attributes survive unchanged in the
result. -/
theorem claim_C9_attrs_survive (f : ModelField) (n : String) (m : PydModel)
    (hprep : prepare_type_ann (.modelField f) = .ok (.baseModel m)) :
    create_xml_element_for_field (.modelField f) (some n) =
      create_xml_element_for_base_model m
        (some (initial_field_element (.modelField f) (some n) "object")) ∧
    ∀ e, create_xml_element_for_field (.modelField f) (some n) = .ok e →
      e.attrs = (initial_field_element (.modelField f) (some n) "object").attrs := by
  have hts : type_ann_to_string (.modelField f) = .ok "object" := by
    unfold type_ann_to_string
    rw [hprep]
    rfl
  have hmain : create_xml_element_for_field (.modelField f) (some n) =
      create_xml_element_for_base_model m
        (some (initial_field_element (.modelField f) (some n) "object")) := by
    rw [create_xml_element_for_field.eq_def]
    rw [hts]
    simp only
    split
    · split
      · rename_i heq
        rw [hprep] at heq
        cases heq
      · rename_i type_ann heq
        rw [hprep] at heq
        injection heq with heq2
        subst heq2
        rfl
    · rename_i hc
      exact absurd rfl hc
  refine ⟨hmain, ?_⟩
  intro e he
  rw [hmain] at he
  exact (base_model_acc_preserves m _ e he).2

/-- The nested record used in the C9 witness. -/
def m9 : PydModel := .mk [("age", .mk .int ⟨none, none, none⟩)]

/-- A described field whose annotation is the nested record `m9`. -/
def f9 : ModelField := .mk (.baseModel m9) ⟨some "a person", none, none⟩

/-- Witness for C9: the recursion reuses the pre-set element and its
attributes survive. -/
theorem claim_C9_witness :
    create_xml_element_for_field (.modelField f9) (some "person") =
      create_xml_element_for_base_model m9
        (some (initial_field_element (.modelField f9) (some "person")
          "object")) :=
  (claim_C9_attrs_survive f9 "person" m9 rfl).1

/-! ### Discriminated unions (C2, C10) -/

/-- The field `x: int` with discriminator key "shape". -/
def fxC : ModelField := .mk .int ⟨none, none, some "shape"⟩

/-- The field `y: str` with discriminator key "shape". -/
def fyC : ModelField := .mk .str ⟨none, none, some "shape"⟩

/-- A model with exactly the two discriminated fields `x` and `y`. -/
def modelC : PydModel := .mk [("x", fxC), ("y", fyC)]

/-- C2 counterexample: the claim says each case element's sole child is the
field's element built WITHOUT a name attribute; evaluating the code on the
two-field "shape" model shows the sole child of the first case element
carries the name attribute "x" (line 358 of the source passes `field_name`
when building the child), so the claim as stated is false. -/
theorem claim_C2_counterexample :
    create_xml_element_for_base_model modelC none =
      .ok (XmlElement.mk "object" []
        [XmlElement.mk "choice"
          [("name", "shape"), ("on-fail-choice", "exception")]
          [XmlElement.mk "case" [("name", "x")]
            [XmlElement.mk "integer" [("name", "x")] []],
           XmlElement.mk "case" [("name", "y")]
            [XmlElement.mk "string" [("name", "y")] []]]]) ∧
    (((((create_xml_element_for_base_model modelC none).toOption.bind
        (fun e => e.childAt 0)).bind (fun e => e.childAt 0)).bind
        (fun e => e.childAt 0)).bind (fun e => e.getAttr "name")) =
      some "x" := by
  constructor
  · simp [create_xml_element_for_base_model, create_xml_element_for_field,
      buildDirectFields, buildChoices, buildCases,
      type_ann_to_string, prepare_type_ann,
      FieldArg.underlying, is_list, is_dict, is_pydantic_base_model, get_args,
      initial_field_element, add_validators_to_xml_element, XmlElement.set,
      XmlElement.append, ModelField.ann, ModelField.field_info,
      modelC, fxC, fyC, PydModel.fields, groupWhens, case_elements_of,
      whenTruthy, insertAppend]
  · simp [create_xml_element_for_base_model, create_xml_element_for_field,
      buildDirectFields, buildChoices, buildCases,
      type_ann_to_string, prepare_type_ann,
      FieldArg.underlying, is_list, is_dict, is_pydantic_base_model, get_args,
      initial_field_element, add_validators_to_xml_element, XmlElement.set,
      XmlElement.append, ModelField.ann, ModelField.field_info,
      modelC, fxC, fyC, PydModel.fields, groupWhens, case_elements_of,
      whenTruthy, insertAppend, Except.toOption, XmlElement.childAt,
      XmlElement.getAttr, XmlElement.children, XmlElement.attrs, List.find?]

/-- C2 as amended: for fields `x` and `y` both carrying discriminator key
"shape", `build_object` produces exactly one choice element named "shape"
with `on-fail-choice="exception"`, whose two case children "x" and "y"
appear in declaration order, each case's sole child being that field's
element built WITH the field name (so it carries a name attribute), and no
top-level `x`/`y` element. -/
theorem claim_C2_amended_choice_structure (fx fy : ModelField)
    (ex ey : XmlElement)
    (hfx : fx.field_info.when = some "shape")
    (hfy : fy.field_info.when = some "shape")
    (hbx : create_xml_element_for_field (.modelField fx) (some "x") = .ok ex)
    (hby : create_xml_element_for_field (.modelField fy) (some "y") = .ok ey) :
    create_xml_element_for_base_model (.mk [("x", fx), ("y", fy)]) none =
      .ok (XmlElement.mk "object" []
        [XmlElement.mk "choice"
          [("name", "shape"), ("on-fail-choice", "exception")]
          [XmlElement.mk "case" [("name", "x")] [ex],
           XmlElement.mk "case" [("name", "y")] [ey]]]) := by
  simp [create_xml_element_for_base_model, buildDirectFields, buildChoices,
    buildCases, hfx, hfy, hbx, hby, PydModel.fields, groupWhens,
    case_elements_of, whenTruthy, insertAppend, XmlElement.set,
    XmlElement.append]

/-- Witness for the amended C2 at the concrete model. -/
theorem claim_C2_witness :
    create_xml_element_for_base_model modelC none =
      .ok (XmlElement.mk "object" []
        [XmlElement.mk "choice"
          [("name", "shape"), ("on-fail-choice", "exception")]
          [XmlElement.mk "case" [("name", "x")]
            [XmlElement.mk "integer" [("name", "x")] []],
           XmlElement.mk "case" [("name", "y")]
            [XmlElement.mk "string" [("name", "y")] []]]]) :=
  claim_C2_amended_choice_structure fxC fyC
    (XmlElement.mk "integer" [("name", "x")] [])
    (XmlElement.mk "string" [("name", "y")] []) rfl rfl
    (by simp [create_xml_element_for_field, type_ann_to_string,
      prepare_type_ann, FieldArg.underlying, is_list, is_dict,
      is_pydantic_base_model, get_args, initial_field_element,
      add_validators_to_xml_element, XmlElement.set, ModelField.ann,
      ModelField.field_info, fxC])
    (by simp [create_xml_element_for_field, type_ann_to_string,
      prepare_type_ann, FieldArg.underlying, is_list, is_dict,
      is_pydantic_base_model, get_args, initial_field_element,
      add_validators_to_xml_element, XmlElement.set, ModelField.ann,
      ModelField.field_info, fyC])

/-- C10: a field with no discriminator key whose NAME equals another
field's discriminator key value is silently dropped: it is skipped in the
direct pass (its name is a key of `choice_elements`) and it is never added
to any group, so the output contains only the choice element. The dropped
field `g` is arbitrary — it is never built at all. -/
theorem claim_C10_name_clash_dropped (g fx : ModelField) (w x : String)
    (ex : XmlElement)
    (hg : g.field_info.when = none)
    (hfx : fx.field_info.when = some w) (hw : w ≠ "")
    (hbx : create_xml_element_for_field (.modelField fx) (some x) = .ok ex) :
    create_xml_element_for_base_model (.mk [(w, g), (x, fx)]) none =
      .ok (XmlElement.mk "object" []
        [XmlElement.mk "choice" [("name", w), ("on-fail-choice", "exception")]
          [XmlElement.mk "case" [("name", x)] [ex]]]) := by
  simp [create_xml_element_for_base_model, buildDirectFields, buildChoices,
    buildCases, hg, hfx, hw, hbx, PydModel.fields, groupWhens,
    case_elements_of, whenTruthy, insertAppend, XmlElement.set,
    XmlElement.append]

/-- A field whose type is not even representable: building it would fail,
showing the direct pass never builds the dropped field. -/
def g10 : ModelField := .mk (.other "Unsupported") ⟨none, none, none⟩

/-- The discriminated sibling for the C10 witness. -/
def fx10 : ModelField := .mk .int ⟨none, none, some "shape"⟩

/-- Witness for C10: the field literally named "shape" vanishes from the
output. -/
theorem claim_C10_witness :
    create_xml_element_for_base_model (.mk [("shape", g10), ("size", fx10)])
        none =
      .ok (XmlElement.mk "object" []
        [XmlElement.mk "choice"
          [("name", "shape"), ("on-fail-choice", "exception")]
          [XmlElement.mk "case" [("name", "size")]
            [XmlElement.mk "integer" [("name", "size")] []]]]) :=
  claim_C10_name_clash_dropped g10 fx10 "shape" "size"
    (XmlElement.mk "integer" [("name", "size")] []) rfl rfl
    (by decide)
    (by simp [create_xml_element_for_field, type_ann_to_string,
      prepare_type_ann, FieldArg.underlying, is_list, is_dict,
      is_pydantic_base_model, get_args, initial_field_element,
      add_validators_to_xml_element, XmlElement.set, ModelField.ann,
      ModelField.field_info, fx10])
